import Mathlib

set_option maxRecDepth 8000

/-!
Verification of the core of the WCAG Reporter NVDA add-on
(src/addon/globalPlugins/wcagReporter.py): the Ollama chat client with
its retry policy, the markdown-to-plain-text converter
`convert_markdown_to_text`, the model-list fetcher, and the transcript
handling of the two dialogs.  Python regular-expression substitutions
are embedded as character-list scanners that replicate the semantics of
`re.sub` (left-to-right scan, non-overlapping matches, greedy and lazy
quantifiers as in the source patterns, `re.MULTILINE` anchors tracked
through a line-start flag).  The gettext function `_` is modelled as the
identity on the untranslated msgid.
-/

/-- Python whitespace: the character set matched by the regex class `\s`
and stripped by `str.strip()` (space, tab, newline, carriage return,
vertical tab, form feed). -/
def isPySpace (c : Char) : Bool :=
  c == ' ' || c == '\t' || c == '\n' || c == '\r' || c == '\x0b' || c == '\x0c'

/-- Python `str.strip()` on a character list: whitespace removed from
both ends. -/
def pyStripList (l : List Char) : List Char :=
  ((l.dropWhile isPySpace).reverse.dropWhile isPySpace).reverse

/-- Python `str.strip()`. -/
def pyStrip (s : String) : String :=
  ⟨pyStripList s.data⟩

/-- Python `str.strip('|')`: all leading and trailing pipe characters
removed. -/
def stripPipesEnds (l : List Char) : List Char :=
  ((l.dropWhile (fun c => c == '|')).reverse.dropWhile (fun c => c == '|')).reverse

/-- Python `str.split(sep)` for a one-character separator: split at
every occurrence, keeping empty pieces. -/
def splitOnChar (sep : Char) : List Char → List (List Char)
  | [] => [[]]
  | c :: rest =>
    if c == sep then [] :: splitOnChar sep rest
    else
      match splitOnChar sep rest with
      | h :: t => (c :: h) :: t
      | [] => [[c]]

/-- Python `sep.join(pieces)`. -/
def joinSep (sep : List Char) : List (List Char) → List Char
  | [] => []
  | [x] => x
  | x :: xs => x ++ sep ++ joinSep sep xs

/-- First index at which `pat` occurs as a contiguous sublist. -/
def findSub (pat : List Char) : List Char → Option Nat
  | [] => if pat.isEmpty then some 0 else none
  | c :: rest =>
    if pat.isPrefixOf (c :: rest) then some 0
    else (findSub pat rest).map (· + 1)

/-- True when the list is nonempty and its last character is a
newline. -/
def lastIsNewline (l : List Char) : Bool :=
  match l.getLast? with
  | some c => c == '\n'
  | none => false

/-- One `re.sub` pass.  The matcher `m` receives the flag saying
whether the current position is a line start (for `re.MULTILINE`
anchors: the start of the subject or the position after a newline) and
the remaining input; when the pattern matches at the current position
it returns the replacement text and the number of consumed characters
(always at least one for every pattern of the source).  The scan tries
each position from left to right, replaces a match, and resumes right
after it without rescanning the replacement, exactly as `re.sub` does.
The fuel argument is initialised with the input length, which the scan
never exhausts. -/
def reSubAux (m : Bool → List Char → Option (List Char × Nat)) :
    Nat → Bool → List Char → List Char
  | 0, _, l => l
  | _ + 1, _, [] => []
  | fuel + 1, atStart, c :: rest =>
    match m atStart (c :: rest) with
    | some (repl, n) =>
      let k := max n 1
      repl ++ reSubAux m fuel (lastIsNewline ((c :: rest).take k)) ((c :: rest).drop k)
    | none => c :: reSubAux m fuel (c == '\n') rest

/-- A full `re.sub(pattern, repl, text)` pass, starting at a line
start. -/
def reSub (m : Bool → List Char → Option (List Char × Nat)) (l : List Char) : List Char :=
  reSubAux m l.length true l

/-- The backtick character, written by code point to keep it out of the
source text. -/
def btChar : Char := Char.ofNat 96

/-- The three-backtick fence delimiter. -/
def fenceTicks : List Char := [btChar, btChar, btChar]

/-- The localized code block start marker (untranslated msgid of the
source). -/
def code_start : List Char := "--- Code Start ---".toList

/-- The localized code block end marker (untranslated msgid of the
source). -/
def code_end : List Char := "--- Code End ---".toList

/-- ASCII word character, the regex class `\w` restricted to ASCII (the
source only ever sees ASCII language tags after a fence). -/
def isWordChar (c : Char) : Bool :=
  ('a' ≤ c && c ≤ 'z') || ('A' ≤ c && c ≤ 'Z') || ('0' ≤ c && c ≤ '9') || c == '_'

/-- ASCII digit, the regex class `\d` restricted to ASCII. -/
def isDigitChar (c : Char) : Bool := '0' ≤ c && c ≤ '9'

/-- Matcher for the fenced code block rule of the source: the pattern
is three backticks, a greedy run of word characters, a newline, a lazy
group running up to the first closing three backticks (DOTALL, so the
group may span lines); the replacement is a newline, the code start
marker, a newline, the group verbatim, the code end marker and a
newline. -/
def m_fence (_ : Bool) (l : List Char) : Option (List Char × Nat) :=
  if fenceTicks.isPrefixOf l then
    let r1 := l.drop 3
    let w := r1.takeWhile isWordChar
    match r1.drop w.length with
    | '\n' :: r3 =>
      match findSub fenceTicks r3 with
      | some j =>
        some ('\n' :: (code_start ++ '\n' :: (r3.take j ++ code_end ++ ['\n'])),
              3 + w.length + 1 + j + 3)
      | none => none
    | _ => none
  else none

/-- Matcher deleting any remaining triple backticks. -/
def m_ticks (_ : Bool) (l : List Char) : Option (List Char × Nat) :=
  if fenceTicks.isPrefixOf l then some ([], 3) else none

/-- A table line per the source pattern fragment: starts with a pipe,
ends with a pipe, and has at least one character in between. -/
def tableLine (line : List Char) : Bool :=
  match line with
  | c :: rest =>
    c == '|' && decide (2 ≤ rest.length) &&
      (match rest.getLast? with
       | some d => d == '|'
       | none => false)
  | [] => false

/-- Number of characters consumed by the table pattern (a maximal run
of consecutive table lines, each with its trailing newline when
present) starting at the current line start; zero when the first line
is not a table line. -/
def tableMatchLen : Nat → List Char → Nat
  | 0, _ => 0
  | fuel + 1, l =>
    let line := l.takeWhile (fun c => c != '\n')
    if tableLine line then
      match l.drop line.length with
      | '\n' :: r2 => line.length + 1 + tableMatchLen fuel r2
      | _ => line.length
    else 0

/-- The separator-row test of the source: an optional leading pipe,
optional whitespace, a nonempty run of dashes or colons, optional
whitespace, then a pipe. -/
def sepLine (line : List Char) : Bool :=
  let l1 := match line with
    | c :: r => if c == '|' then r else line
    | [] => line
  let l2 := l1.dropWhile isPySpace
  let dashes := l2.takeWhile (fun c => c == '-' || c == ':')
  if dashes.isEmpty then false
  else
    match (l2.drop dashes.length).dropWhile isPySpace with
    | c :: _ => c == '|'
    | [] => false

/-- The function replacement of the table rule: strip the matched
block, split it into lines, drop separator rows, and for each remaining
row strip the outer pipes, split on pipes, strip each cell and join the
cells with tabs; the rows are joined with newlines. -/
def convert_table (tableText : List Char) : List Char :=
  let lines := splitOnChar '\n' (pyStripList tableText)
  let rows := lines.filterMap (fun line =>
    if sepLine line then none
    else some (joinSep ['\t'] ((splitOnChar '|' (stripPipesEnds line)).map pyStripList)))
  joinSep ['\n'] rows

/-- Matcher for the table rule (anchored at a line start). -/
def m_table (atStart : Bool) (l : List Char) : Option (List Char × Nat) :=
  if atStart then
    let n := tableMatchLen l.length l
    if n == 0 then none
    else some (convert_table (l.take n), n)
  else none

/-- Matcher for the heading rules: at a line start, `k` hash marks
followed by the fragment of greedy whitespace then a nonempty lazy-free
group running to the end of a line.  The whitespace run may cross
newlines; when a non-whitespace character follows it, the group is the
rest of that character's line; when the input ends inside the
whitespace run the engine backtracks and the group becomes the trailing
run of non-newline whitespace, when that run is nonempty. -/
def m_heading (k : Nat) (wrapL wrapR : List Char) (atStart : Bool) (l : List Char) :
    Option (List Char × Nat) :=
  if atStart && (List.replicate k '#').isPrefixOf l then
    let rest := l.drop k
    let w := rest.takeWhile isPySpace
    match rest.drop w.length with
    | [] =>
      let t := (w.reverse.takeWhile (fun c => isPySpace c && c != '\n')).reverse
      if t.isEmpty then none
      else some (wrapL ++ t ++ wrapR, k + w.length)
    | c :: r2 =>
      let g := c :: r2.takeWhile (fun d => d != '\n')
      some (wrapL ++ g ++ wrapR, k + w.length + g.length)
  else none

/-- Smallest index at which the delimiter occurs, scanning only across
non-newline characters (the lazy group of the emphasis patterns cannot
cross a newline). -/
def findDelim (d : List Char) : List Char → Option Nat
  | [] => none
  | c :: rest =>
    if d.isPrefixOf (c :: rest) then some 0
    else if c == '\n' then none
    else (findDelim d rest).map (· + 1)

/-- Matcher for one emphasis rule: the delimiter, a lazy nonempty group
of non-newline characters, the delimiter again; the replacement is the
group. -/
def m_emph (d : List Char) (_ : Bool) (l : List Char) : Option (List Char × Nat) :=
  if d.isPrefixOf l then
    let rem := l.drop d.length
    match rem with
    | [] => none
    | c0 :: rtail =>
      if c0 == '\n' then none
      else
        match findDelim d rtail with
        | some j => some (rem.take (j + 1), d.length + (j + 1) + d.length)
        | none => none
  else none

/-- Matcher for the unordered list rule: at a line start, greedy
whitespace (which may cross newlines), a bullet character, then at
least one whitespace character, replaced by an indented bullet
glyph. -/
def m_ulist (atStart : Bool) (l : List Char) : Option (List Char × Nat) :=
  if atStart then
    let w := l.takeWhile isPySpace
    match l.drop w.length with
    | c :: rest =>
      if c == '-' || c == '*' || c == '+' then
        let w2 := rest.takeWhile isPySpace
        if w2.isEmpty then none
        else some ("  • ".toList, w.length + 1 + w2.length)
      else none
    | [] => none
  else none

/-- Matcher for the ordered list rule: at a line start, greedy
whitespace, a nonempty digit run, a dot, then at least one whitespace
character; the replacement keeps the number. -/
def m_olist (atStart : Bool) (l : List Char) : Option (List Char × Nat) :=
  if atStart then
    let w := l.takeWhile isPySpace
    let afterW := l.drop w.length
    let digits := afterW.takeWhile isDigitChar
    if digits.isEmpty then none
    else
      match afterW.drop digits.length with
      | '.' :: rest =>
        let w2 := rest.takeWhile isPySpace
        if w2.isEmpty then none
        else some ("  ".toList ++ digits ++ ". ".toList,
                   w.length + digits.length + 1 + w2.length)
      | _ => none
  else none

/-- Matcher for the inline code rule: a backtick, a nonempty run of
non-backtick characters, a backtick; the replacement brackets the
run. -/
def m_icode (_ : Bool) (l : List Char) : Option (List Char × Nat) :=
  match l with
  | c :: r1 =>
    if c == btChar then
      let g := r1.takeWhile (fun d => d != btChar)
      if g.isEmpty then none
      else
        match r1.drop g.length with
        | d :: _ => if d == btChar then some ('[' :: (g ++ [']']), 1 + g.length + 1) else none
        | [] => none
    else none
  | [] => none

/-- Matcher for the link rule: bracketed nonempty text followed
immediately by parenthesised nonempty text, rendered as the text, a
space and the parenthesised part. -/
def m_link (_ : Bool) (l : List Char) : Option (List Char × Nat) :=
  match l with
  | c :: r1 =>
    if c == '[' then
      let g1 := r1.takeWhile (fun d => d != ']')
      if g1.isEmpty then none
      else
        match r1.drop g1.length with
        | ']' :: '(' :: r2 =>
          let g2 := r2.takeWhile (fun d => d != ')')
          if g2.isEmpty then none
          else
            match r2.drop g2.length with
            | ')' :: _ => some (g1 ++ ' ' :: '(' :: (g2 ++ [')']), g1.length + g2.length + 4)
            | _ => none
        | _ => none
    else none
  | [] => none

/-- Matcher for the horizontal rule: at a line start, a maximal run of
at least three dash, star or underscore characters filling the whole
line; replaced by a blank line, forty equals signs and a blank line
(the line's newline itself is not consumed). -/
def m_hr (atStart : Bool) (l : List Char) : Option (List Char × Nat) :=
  if atStart then
    let run := l.takeWhile (fun c => c == '-' || c == '*' || c == '_')
    if decide (3 ≤ run.length) then
      match l.drop run.length with
      | [] => some ('\n' :: (List.replicate 40 '=' ++ ['\n']), run.length)
      | c :: _ =>
        if c == '\n' then some ('\n' :: (List.replicate 40 '=' ++ ['\n']), run.length)
        else none
    else none
  else none

/-- Matcher for the blockquote rule: at a line start, a greater-than
sign and the following greedy whitespace run (which may cross
newlines) are deleted. -/
def m_bq (atStart : Bool) (l : List Char) : Option (List Char × Nat) :=
  if atStart then
    match l with
    | c :: r =>
      if c == '>' then some ([], 1 + (r.takeWhile isPySpace).length)
      else none
    | [] => none
  else none

/-- Matcher for the leftover pipe rule: any pipe together with the
maximal whitespace runs on both sides becomes two spaces. -/
def m_pipe (_ : Bool) (l : List Char) : Option (List Char × Nat) :=
  let w := l.takeWhile isPySpace
  match l.drop w.length with
  | c :: r2 =>
    if c == '|' then some ("  ".toList, w.length + 1 + (r2.takeWhile isPySpace).length)
    else none
  | [] => none

/-- Matcher collapsing runs of three or more newlines to two. -/
def m_nl3 (_ : Bool) (l : List Char) : Option (List Char × Nat) :=
  let run := l.takeWhile (fun c => c == '\n')
  if decide (3 ≤ run.length) then some (['\n', '\n'], run.length) else none

/-- Matcher deleting trailing spaces and tabs before a newline. -/
def m_trail (_ : Bool) (l : List Char) : Option (List Char × Nat) :=
  let w := l.takeWhile (fun c => c == ' ' || c == '\t')
  if w.isEmpty then none
  else
    match l.drop w.length with
    | c :: _ => if c == '\n' then some (['\n'], w.length + 1) else none
    | [] => none

/-- The whole `convert_markdown_to_text` cascade on character lists, one
`re.sub` pass per rule, in the order of the source, followed by the
final `strip()`. -/
def convert_markdown_to_text_chars (l : List Char) : List Char :=
  if l.isEmpty then []
  else
    let t1 := reSub m_fence l
    let t2 := reSub m_ticks t1
    let t3 := reSub m_table t2
    let t4 := reSub (m_heading 6 ['\n'] ['\n']) t3
    let t5 := reSub (m_heading 5 ['\n'] ['\n']) t4
    let t6 := reSub (m_heading 4 ['\n'] ['\n']) t5
    let t7 := reSub (m_heading 3 "\n=== ".toList " ===\n".toList) t6
    let t8 := reSub (m_heading 2 "\n== ".toList " ==\n".toList) t7
    let t9 := reSub (m_heading 1 "\n= ".toList " =\n".toList) t8
    let t10 := reSub (m_emph ['*', '*', '*']) t9
    let t11 := reSub (m_emph ['*', '*']) t10
    let t12 := reSub (m_emph ['_', '_']) t11
    let t13 := reSub (m_emph ['*']) t12
    let t14 := reSub (m_emph ['_']) t13
    let t15 := reSub m_ulist t14
    let t16 := reSub m_olist t15
    let t17 := reSub m_icode t16
    let t18 := reSub m_link t17
    let t19 := reSub m_hr t18
    let t20 := reSub m_bq t19
    let t21 := reSub m_pipe t20
    let t22 := reSub m_nl3 t21
    let t23 := reSub m_trail t22
    pyStripList t23

/-- The markdown-to-plain-text converter of the source (TextNormalizer
of the specification). -/
def convert_markdown_to_text (s : String) : String :=
  ⟨convert_markdown_to_text_chars s.data⟩

/-- A JSON value as handled by the source through `json.loads`: Python
dicts become association lists. -/
inductive PyJson where
  | str (s : String)
  | num (n : Int)
  | bool (b : Bool)
  | null
  | arr (xs : List PyJson)
  | obj (fields : List (String × PyJson))

/-- Python `dict.get(key, default)` as a fallible operation: on a
non-dict receiver Python raises AttributeError, which the source's
generic `except Exception` handler observes. -/
def PyJson.get (j : PyJson) (key : String) (dflt : PyJson) : Except String PyJson :=
  match j with
  | .obj fields => .ok (((fields.find? (fun kv => kv.1 == key)).map (fun kv => kv.2)).getD dflt)
  | _ => .error "AttributeError"

/-- Total variant of `dict.get(key, default)` for stating results about
well-formed objects. -/
def PyJson.getD (j : PyJson) (key : String) (dflt : PyJson) : PyJson :=
  match j with
  | .obj fields => ((fields.find? (fun kv => kv.1 == key)).map (fun kv => kv.2)).getD dflt
  | _ => dflt

/-- Whether the value is a Python dict. -/
def PyJson.isObj : PyJson → Bool
  | .obj _ => true
  | _ => false

/-- The exceptions the request attempt of `ollama_chat_with_retry` can
raise.  `urllib.error.HTTPError` (raised by `urlopen` for non-success
HTTP statuses) is documented as a subclass of `urllib.error.URLError`,
so the source's `except urllib.error.URLError` clause catches it; every
other exception (for example `json.JSONDecodeError` on a malformed
body) falls to the generic `except Exception` clause. -/
inductive PyExc where
  | urlError (msg : String)
  | httpError (code : Nat) (msg : String)
  | other (msg : String)
deriving DecidableEq

/-- Whether the exception is an instance of `urllib.error.URLError`
(which `urllib.error.HTTPError` is, being its subclass). -/
def PyExc.isURLError : PyExc → Bool
  | .urlError _ => true
  | .httpError _ _ => true
  | .other _ => false

/-- Python `str(e)` on the exception, abstracted as the carried
message. -/
def PyExc.str : PyExc → String
  | .urlError m => m
  | .httpError _ m => m
  | .other m => m

/-- Outcome of one `urlopen` + `response.read` + `json.loads` attempt:
either the parsed response body, or a raised exception. -/
inductive TransportResult where
  | ok (body : PyJson)
  | exc (e : PyExc)

/-- A chat message as the Python dicts with role and content keys. -/
structure ChatMsg where
  role : String
  content : String
deriving DecidableEq

/-- The construction of the messages field of the outgoing payload:
the caller's messages, with a synthetic system turn prepended when the
system prompt is truthy in the Python sense (not None and not the empty
string). -/
def ollama_payload_messages (messages : List ChatMsg) (system_prompt : Option String) :
    List ChatMsg :=
  match system_prompt with
  | some sp => if sp == "" then messages else ⟨"system", sp⟩ :: messages
  | none => messages

/-- Extraction of the reply from a parsed response body, per the
source's `result.get("message", {}).get("content", "")`. -/
def extract_content (body : PyJson) : Except PyExc PyJson :=
  match body.get "message" (.obj []) with
  | .ok m =>
    match m.get "content" (.str "") with
    | .ok c => .ok c
    | .error msg => .error (.other msg)
  | .error msg => .error (.other msg)

/-- The retry loop of `ollama_chat_with_retry`.  The transport function
abstracts one `urlopen` attempt; it receives the serialized payload
messages, the zero-based attempt index, and the per-attempt timeout
`timeout + attempt * 30` computed by the source.  A URLError-family
exception records a connection error message and retries (the source
also sleeps two seconds, a real-time effect not modelled); any other
exception records an API error message and breaks out of the loop,
after which the last error is raised as OllamaError. -/
def ollama_chat_attempts (transport : List ChatMsg → Nat → Nat → TransportResult)
    (payload : List ChatMsg) (timeout max_retries : Nat) :
    Nat → Nat → Option String → Except String PyJson
  | 0, _, lastError => .error (lastError.getD "Unknown error")
  | remaining + 1, attempt, _lastError =>
    let current_timeout := timeout + attempt * 30
    match transport payload attempt current_timeout with
    | .ok body =>
      match extract_content body with
      | .ok content => .ok content
      | .error e => .error ("API error: " ++ e.str)
    | .exc e =>
      if e.isURLError then
        ollama_chat_attempts transport payload timeout max_retries remaining (attempt + 1)
          (some ("Connection error (attempt " ++ toString (attempt + 1) ++ "/"
                 ++ toString max_retries ++ "): " ++ e.str))
      else .error ("API error: " ++ e.str)

/-- The chat client `ollama_chat_with_retry` of the source: builds the
payload messages once, then runs up to `max_retries` attempts. -/
def ollama_chat_with_retry (transport : List ChatMsg → Nat → Nat → TransportResult)
    (messages : List ChatMsg) (system_prompt : Option String)
    (timeout max_retries : Nat) : Except String PyJson :=
  ollama_chat_attempts transport (ollama_payload_messages messages system_prompt)
    timeout max_retries max_retries 0 none

/-- The `ollama_chat` wrapper, fixing the default of three attempts. -/
def ollama_chat (transport : List ChatMsg → Nat → Nat → TransportResult)
    (messages : List ChatMsg) (system_prompt : Option String) (timeout : Nat) :
    Except String PyJson :=
  ollama_chat_with_retry transport messages system_prompt timeout 3

/-- The list comprehension of `get_ollama_models`: each entry is read
through `m.get("name", "")`, left to right, and the first raised
exception aborts the whole comprehension. -/
def models_name_list : List PyJson → Except PyExc (List PyJson)
  | [] => .ok []
  | m :: rest =>
    match m.get "name" (.str "") with
    | .ok v =>
      match models_name_list rest with
      | .ok vs => .ok (v :: vs)
      | .error e => .error e
    | .error msg => .error (.other msg)

/-- Extraction step of `get_ollama_models`: read the models array with
an empty-list default and run the comprehension over its entries;
iterating a non-list raises (TypeError), which the bare `except`
observes. -/
def models_extract (result : PyJson) : Except PyExc (List PyJson) :=
  match result.get "models" (.arr []) with
  | .ok models =>
    match models with
    | .arr ms => models_name_list ms
    | _ => .error (.other "TypeError")
  | .error msg => .error (.other msg)

/-- The `get_ollama_models` function of the source: `fetch` abstracts
the `urlopen` + `json.loads` of the tags endpoint; any failure
anywhere yields the empty list through the bare `except` clause. -/
def get_ollama_models (fetch : Except String PyJson) : List PyJson :=
  match fetch with
  | .error _ => []
  | .ok result =>
    match models_extract result with
    | .ok xs => xs
    | .error _ => []

/-- The Turkish system prompt template with version and level
interpolated, per `SYSTEM_PROMPT_TR` and `str.format`. -/
def SYSTEM_PROMPT_TR_fmt (version level : String) : String :=
  "Sen bir WCAG erişilebilirlik uzmanısın. Görevin, verilen HTML elementini WCAG "
  ++ version ++ " standartlarına göre " ++ level ++ " seviyesinde analiz etmektir.\n\n"
  ++ "Analiz sonucunda şunları belirt:\n"
  ++ "1. **Tespit Edilen Sorunlar**: Her sorun için WCAG kriterini ve açıklamasını yaz\n"
  ++ "2. **Önem Derecesi**: Kritik, Yüksek, Orta, Düşük\n"
  ++ "3. **Düzeltme Önerileri**: Her sorun için somut kod önerileri\n"
  ++ "4. **Genel Değerlendirme**: Elementin erişilebilirlik durumu\n\n"
  ++ "Yanıtını Türkçe olarak ver. Teknik terimleri açıkla."

/-- The English system prompt template with version and level
interpolated, per `SYSTEM_PROMPT_EN` and `str.format`. -/
def SYSTEM_PROMPT_EN_fmt (version level : String) : String :=
  "You are a WCAG accessibility expert. Your task is to analyze the given HTML element according to WCAG "
  ++ version ++ " standards at " ++ level ++ " conformance level.\n\n"
  ++ "In your analysis, include:\n"
  ++ "1. **Issues Found**: For each issue, specify the WCAG criterion and explanation\n"
  ++ "2. **Severity**: Critical, High, Medium, Low\n"
  ++ "3. **Remediation**: Specific code suggestions for each issue\n"
  ++ "4. **Overall Assessment**: Accessibility status of the element\n\n"
  ++ "Provide your response in English. Explain technical terms."

/-- `get_system_prompt` of the source. -/
def get_system_prompt (language wcag_version wcag_level : String) : String :=
  if language == "tr" then SYSTEM_PROMPT_TR_fmt wcag_version wcag_level
  else SYSTEM_PROMPT_EN_fmt wcag_version wcag_level

/-- `get_analysis_prompt` of the source (the f-string bodies with the
HTML and context interpolated). -/
def get_analysis_prompt (html_content context language : String) : String :=
  if language == "tr" then
    "Aşağıdaki HTML elementini WCAG erişilebilirlik açısından analiz et:\n\n"
    ++ "```html\n" ++ html_content ++ "\n```\n\n"
    ++ "Ek Bağlam: " ++ context
    ++ "\n\nLütfen detaylı bir WCAG analizi yap."
  else
    "Analyze the following HTML element for WCAG accessibility:\n\n"
    ++ "```html\n" ++ html_content ++ "\n```\n\n"
    ++ "Additional Context: " ++ context
    ++ "\n\nPlease provide a detailed WCAG analysis."

/-- The configuration snapshot fields `onAnalyze` reads (the URL, model
and timeout entries are consumed by the abstracted chat call). -/
structure WcagConfig where
  language : String
  wcagVersion : String
  wcagLevel : String
deriving DecidableEq

/-- The observable state of `WCAGResultDialog`: the displayed result
text, the element HTML, and the conversation transcript. -/
structure ResultDialogState where
  result : String
  element_html : String
  conversation : List ChatMsg
deriving DecidableEq

/-- The constructor of `WCAGResultDialog`: stores the displayed text as
given and seeds the conversation with a user turn carrying the HTML and
an assistant turn carrying the given result text. -/
def WCAGResultDialog.init (result element_html : String) : ResultDialogState :=
  { result := result
    element_html := element_html
    conversation := [⟨"user", "HTML: " ++ element_html⟩, ⟨"assistant", result⟩] }

/-- `GlobalPlugin._showResult`: normalizes the model output and opens
the result dialog on the normalized copy. -/
def GlobalPlugin.showResult (result html : String) : ResultDialogState :=
  WCAGResultDialog.init (convert_markdown_to_text result) html

/-- `WCAGResultDialog.onAskMore` run to completion: a blank question is
ignored; otherwise the stripped question is appended as a user turn
before the send, and on success the raw reply is appended and the
displayed text replaced, while on failure only an error is shown (the
stored result text is not touched and the appended user turn stays). -/
def WCAGResultDialog.onAskMore (st : ResultDialogState) (questionRaw : String)
    (chat : List ChatMsg → Except String String) : ResultDialogState :=
  let question := pyStrip questionRaw
  if question == "" then st
  else
    let conv1 := st.conversation ++ [⟨"user", question⟩]
    match chat conv1 with
    | .ok response =>
      { st with
        conversation := conv1 ++ [⟨"assistant", response⟩]
        result := "--- Question: " ++ question ++ " ---" ++ "\n\n"
                  ++ convert_markdown_to_text response }
    | .error _ => { st with conversation := conv1 }

/-- The observable state of `WCAGAnalystDialog`: the conversation
transcript, the in-flight flag, and the results panel text. -/
structure AnalystState where
  conversation : List ChatMsg
  analyzing : Bool
  resultOutput : String
deriving DecidableEq

/-- `WCAGAnalystDialog.onAnalyze` run to completion: empty HTML or an
in-flight analysis is refused; otherwise the prompts are built from the
configuration snapshot and the chat is sent with one user message and
the system prompt; on success the conversation is assigned the fresh
three-turn transcript with the raw reply, and the normalized copy is
displayed; on failure an error is displayed and the conversation is
left as it was; the in-flight flag is cleared in a finally step. -/
def WCAGAnalystDialog.onAnalyze (st : AnalystState) (htmlRaw : String) (conf : WcagConfig)
    (chat : List ChatMsg → Option String → Except String String) : AnalystState :=
  let html_content := pyStrip htmlRaw
  if html_content == "" then st
  else if st.analyzing then st
  else
    let system_prompt := get_system_prompt conf.language conf.wcagVersion conf.wcagLevel
    let user_prompt := get_analysis_prompt html_content "HTML entered by user" conf.language
    match chat [⟨"user", user_prompt⟩] (some system_prompt) with
    | .ok result =>
      { conversation := [⟨"system", system_prompt⟩, ⟨"user", user_prompt⟩,
                         ⟨"assistant", result⟩]
        analyzing := false
        resultOutput := convert_markdown_to_text result }
    | .error e =>
      { st with analyzing := false, resultOutput := "Error: " ++ e }

/-- `WCAGAnalystDialog.onAskMore` run to completion: a blank question,
an empty conversation, or an in-flight operation is refused; otherwise
the stripped question is appended as a user turn before the send; on
success the raw reply is appended and the normalized copy displayed; on
failure an error is displayed and the appended user turn stays. -/
def WCAGAnalystDialog.onAskMore (st : AnalystState) (questionRaw : String)
    (chat : List ChatMsg → Option String → Except String String) : AnalystState :=
  let question := pyStrip questionRaw
  if question == "" then st
  else if st.conversation.isEmpty then st
  else if st.analyzing then st
  else
    let conv1 := st.conversation ++ [⟨"user", question⟩]
    match chat conv1 none with
    | .ok response =>
      { conversation := conv1 ++ [⟨"assistant", response⟩]
        analyzing := false
        resultOutput := "--- Question: " ++ question ++ " ---" ++ "\n\n"
                        ++ convert_markdown_to_text response }
    | .error e =>
      { st with conversation := conv1, analyzing := false, resultOutput := "Error: " ++ e }

/-! ### Generic lemmas about the substitution scanner -/

/-- Unfolding equation for one scan step on a nonempty list. -/
theorem reSubAux_cons (m : Bool → List Char → Option (List Char × Nat)) (fuel : Nat)
    (atStart : Bool) (c : Char) (rest : List Char) :
    reSubAux m (fuel + 1) atStart (c :: rest) =
      match m atStart (c :: rest) with
      | some (repl, n) =>
        repl ++ reSubAux m fuel (lastIsNewline ((c :: rest).take (max n 1)))
          ((c :: rest).drop (max n 1))
      | none => c :: reSubAux m fuel (c == '\n') rest := rfl

/-- Character predicates holding of the input and of every replacement
a matcher can produce hold of the scan's output. -/
theorem reSubAux_pres (P : Char → Prop) (m : Bool → List Char → Option (List Char × Nat))
    (hm : ∀ st l repl n, m st l = some (repl, n) → ∀ c ∈ repl, P c) :
    ∀ (fuel : Nat) (st : Bool) (l : List Char), (∀ c ∈ l, P c) →
      ∀ c ∈ reSubAux m fuel st l, P c := by
  intro fuel
  induction fuel with
  | zero => intro st l hl c hc; exact hl c hc
  | succ n ih =>
    intro st l hl c hc
    cases l with
    | nil => simp [reSubAux] at hc
    | cons a rest =>
      rw [reSubAux_cons] at hc
      cases hma : m st (a :: rest) with
      | none =>
        simp only [hma] at hc
        rcases List.mem_cons.mp hc with h | h
        · exact h ▸ hl a (List.mem_cons_self a rest)
        · exact ih _ rest (fun d hd => hl d (List.mem_cons_of_mem a hd)) c h
      | some pr =>
        obtain ⟨repl, k⟩ := pr
        simp only [hma] at hc
        rcases List.mem_append.mp hc with h | h
        · exact hm st (a :: rest) repl k hma c h
        · exact ih _ _ (fun d hd => hl d ((List.drop_sublist _ _).subset hd)) c h

/-- A scan whose matcher never fires is the identity. -/
theorem reSubAux_id (m : Bool → List Char → Option (List Char × Nat)) (Q : Char → Bool)
    (hm : ∀ (st : Bool) (l : List Char), (∀ c ∈ l, Q c = true) → m st l = none) :
    ∀ (fuel : Nat) (st : Bool) (l : List Char), (∀ c ∈ l, Q c = true) →
      reSubAux m fuel st l = l := by
  intro fuel
  induction fuel with
  | zero => intro st l _; rfl
  | succ n ih =>
    intro st l hl
    cases l with
    | nil => rfl
    | cons a rest =>
      rw [reSubAux_cons, hm st (a :: rest) hl]
      show a :: reSubAux m n (a == '\n') rest = a :: rest
      rw [ih _ rest (fun d hd => hl d (List.mem_cons_of_mem a hd))]

/-- Preservation, at the level of one full substitution pass. -/
theorem reSub_pres (P : Char → Prop) (m : Bool → List Char → Option (List Char × Nat))
    (hm : ∀ st l repl n, m st l = some (repl, n) → ∀ c ∈ repl, P c)
    (l : List Char) (hl : ∀ c ∈ l, P c) : ∀ c ∈ reSub m l, P c :=
  reSubAux_pres P m hm l.length true l hl

/-- Identity, at the level of one full substitution pass. -/
theorem reSub_id (m : Bool → List Char → Option (List Char × Nat)) (Q : Char → Bool)
    (hm : ∀ (st : Bool) (l : List Char), (∀ c ∈ l, Q c = true) → m st l = none)
    (l : List Char) (hl : ∀ c ∈ l, Q c = true) : reSub m l = l :=
  reSubAux_id m Q hm l.length true l hl

/-- The final strip only keeps characters of its input. -/
theorem mem_pyStripList {c : Char} {l : List Char} (h : c ∈ pyStripList l) : c ∈ l := by
  unfold pyStripList at h
  rw [List.mem_reverse] at h
  have h1 := (List.dropWhile_sublist (p := isPySpace)
    (l := (l.dropWhile isPySpace).reverse)).subset h
  rw [List.mem_reverse] at h1
  exact (List.dropWhile_sublist (p := isPySpace) (l := l)).subset h1

/-! ### The pipe-removal invariant -/

/-- The pipe matcher fires whenever the scan stands on a pipe. -/
theorem m_pipe_head_pipe (st : Bool) (r : List Char) :
    m_pipe st ('|' :: r) =
      some ("  ".toList, 1 + (r.takeWhile isPySpace).length) := by
  have hw : ('|' :: r).takeWhile isPySpace = [] := by
    rw [List.takeWhile_cons]
    simp [isPySpace]
  simp [m_pipe, hw]

/-- Every replacement the pipe matcher produces is the two-space
string. -/
theorem m_pipe_repl (st : Bool) (l repl : List Char) (k : Nat)
    (h : m_pipe st l = some (repl, k)) : repl = "  ".toList := by
  simp only [m_pipe] at h
  split at h
  · split at h
    · simp only [Option.some.injEq, Prod.mk.injEq] at h
      exact h.1.symm
    · exact Option.noConfusion h
  · exact Option.noConfusion h

/-- Output of the pipe-removal pass contains no pipe character. -/
theorem reSubAux_pipe_free :
    ∀ (fuel : Nat) (st : Bool) (l : List Char), l.length ≤ fuel →
      ∀ c ∈ reSubAux m_pipe fuel st l, c ≠ '|' := by
  intro fuel
  induction fuel with
  | zero =>
    intro st l hl c hc
    have : l = [] := List.length_eq_zero.mp (Nat.le_zero.mp hl)
    subst this
    simp [reSubAux] at hc
  | succ n ih =>
    intro st l hl c hc
    cases l with
    | nil => simp [reSubAux] at hc
    | cons a rest =>
      rw [reSubAux_cons] at hc
      cases hma : m_pipe st (a :: rest) with
      | none =>
        simp only [hma] at hc
        rcases List.mem_cons.mp hc with h | h
        · subst h
          intro hcp
          subst hcp
          rw [m_pipe_head_pipe] at hma
          exact Option.noConfusion hma
        · exact ih _ rest (by simpa using Nat.le_of_succ_le_succ hl) c h
      | some pr =>
        obtain ⟨repl, k⟩ := pr
        simp only [hma] at hc
        rcases List.mem_append.mp hc with h | h
        · rw [m_pipe_repl st (a :: rest) repl k hma] at h
          intro hcp
          subst hcp
          exact absurd h (by decide)
        · apply ih _ _ _ c h
          rw [List.length_drop]
          have h1 : 1 ≤ max k 1 := le_max_right _ _
          have h2 : (a :: rest).length ≤ n + 1 := hl
          simp only [List.length_cons] at h2 ⊢
          omega

/-- The newline-collapsing matcher only ever emits newlines. -/
theorem m_nl3_repl (st : Bool) (l repl : List Char) (k : Nat)
    (h : m_nl3 st l = some (repl, k)) : repl = ['\n', '\n'] := by
  simp only [m_nl3] at h
  split at h
  · simp only [Option.some.injEq, Prod.mk.injEq] at h
    exact h.1.symm
  · exact Option.noConfusion h

/-- The trailing-whitespace matcher only ever emits a newline. -/
theorem m_trail_repl (st : Bool) (l repl : List Char) (k : Nat)
    (h : m_trail st l = some (repl, k)) : repl = ['\n'] := by
  simp only [m_trail] at h
  split at h
  · exact Option.noConfusion h
  · split at h
    · split at h
      · simp only [Option.some.injEq, Prod.mk.injEq] at h
        exact h.1.symm
      · exact Option.noConfusion h
    · exact Option.noConfusion h

/-- No character of the converter's output is a pipe. -/
theorem convert_chars_no_pipe (l : List Char) :
    ∀ c ∈ convert_markdown_to_text_chars l, c ≠ '|' := by
  intro c hc
  simp only [convert_markdown_to_text_chars] at hc
  by_cases hemp : l.isEmpty = true
  · simp [hemp] at hc
  · rw [if_neg hemp] at hc
    have h21 : ∀ d ∈ reSub m_pipe
        (reSub m_bq (reSub m_hr (reSub m_link (reSub m_icode (reSub m_olist (reSub m_ulist
          (reSub (m_emph ['_']) (reSub (m_emph ['*']) (reSub (m_emph ['_', '_'])
          (reSub (m_emph ['*', '*']) (reSub (m_emph ['*', '*', '*'])
          (reSub (m_heading 1 "\n= ".toList " =\n".toList)
          (reSub (m_heading 2 "\n== ".toList " ==\n".toList)
          (reSub (m_heading 3 "\n=== ".toList " ===\n".toList)
          (reSub (m_heading 4 ['\n'] ['\n']) (reSub (m_heading 5 ['\n'] ['\n'])
          (reSub (m_heading 6 ['\n'] ['\n']) (reSub m_table
          (reSub m_ticks (reSub m_fence l)))))))))))))))))))), d ≠ '|' :=
      fun d hd => reSubAux_pipe_free _ _ _ (le_refl _) d hd
    have h22 : ∀ d ∈ reSub m_nl3 _, d ≠ '|' :=
      reSub_pres (fun d => d ≠ '|') m_nl3
        (fun st l' repl n h d hdm => by
          rw [m_nl3_repl st l' repl n h] at hdm
          fin_cases hdm <;> decide)
        _ h21
    have h23 : ∀ d ∈ reSub m_trail _, d ≠ '|' :=
      reSub_pres (fun d => d ≠ '|') m_trail
        (fun st l' repl n h d hdm => by
          rw [m_trail_repl st l' repl n h] at hdm
          fin_cases hdm
          decide)
        _ h22
    exact h23 c (mem_pyStripList hc)

/-! ### Identity of the converter on plain lowercase text -/

/-- Plain lowercase ASCII letters: characters on which no rule of the
converter can fire. -/
def isPlainChar (c : Char) : Bool := 'a' ≤ c && c ≤ 'z'

/-- A plain character differs from every non-plain character, stated on
the boolean equality both ways round. -/
theorem plain_beq_false {c : Char} (hc : isPlainChar c = true) (d : Char)
    (hd : isPlainChar d = false) : ((d == c) = false) ∧ ((c == d) = false) := by
  constructor
  · cases hb : d == c
    · rfl
    · exact absurd (eq_of_beq hb ▸ hc) (by simp [hd])
  · cases hb : c == d
    · rfl
    · exact absurd (eq_of_beq hb ▸ hd) (by simp [hc])

/-- Plain characters are not Python whitespace. -/
theorem plain_not_pyspace {c : Char} (hc : isPlainChar c = true) : isPySpace c = false := by
  unfold isPySpace
  rw [(plain_beq_false hc ' ' (by decide)).2, (plain_beq_false hc '\t' (by decide)).2,
    (plain_beq_false hc '\n' (by decide)).2, (plain_beq_false hc '\r' (by decide)).2,
    (plain_beq_false hc '\x0b' (by decide)).2, (plain_beq_false hc '\x0c' (by decide)).2]
  rfl

/-- Plain characters are not digits. -/
theorem plain_not_digit {c : Char} (hc : isPlainChar c = true) : isDigitChar c = false := by
  cases hd : isDigitChar c
  · rfl
  · exfalso
    simp only [isDigitChar, Bool.and_eq_true, decide_eq_true_eq] at hd
    simp only [isPlainChar, Bool.and_eq_true, decide_eq_true_eq] at hc
    exact absurd (le_trans hc.1 hd.2) (by decide)

/-- The whitespace run at a plain position is empty. -/
theorem plain_takeWhile_pyspace {l : List Char} (hl : ∀ c ∈ l, isPlainChar c = true) :
    l.takeWhile isPySpace = [] := by
  cases l with
  | nil => rfl
  | cons a rest =>
    rw [List.takeWhile_cons, plain_not_pyspace (hl a (List.mem_cons_self a rest))]
    rfl

/-- A nonempty pattern led by a non-plain character is never a prefix of
plain text. -/
theorem plain_prefix_false {c0 : Char} {cs l : List Char} (h0 : isPlainChar c0 = false)
    (hl : ∀ c ∈ l, isPlainChar c = true) : (c0 :: cs).isPrefixOf l = false := by
  cases l with
  | nil => rfl
  | cons a rest =>
    have hba := (plain_beq_false (hl a (List.mem_cons_self a rest)) c0 h0).1
    simp [List.isPrefixOf, hba]

theorem m_fence_none {l : List Char} (hl : ∀ c ∈ l, isPlainChar c = true) (st : Bool) :
    m_fence st l = none := by
  have hp : fenceTicks.isPrefixOf l = false := by
    rw [show fenceTicks = btChar :: [btChar, btChar] from rfl]
    exact plain_prefix_false (by decide) hl
  simp [m_fence, hp]

theorem m_ticks_none {l : List Char} (hl : ∀ c ∈ l, isPlainChar c = true) (st : Bool) :
    m_ticks st l = none := by
  have hp : fenceTicks.isPrefixOf l = false := by
    rw [show fenceTicks = btChar :: [btChar, btChar] from rfl]
    exact plain_prefix_false (by decide) hl
  simp [m_ticks, hp]

/-- Plain text has no table line. -/
theorem plain_tableLine_false {line : List Char} (hline : ∀ c ∈ line, isPlainChar c = true) :
    tableLine line = false := by
  cases line with
  | nil => rfl
  | cons a rest =>
    have hba := (plain_beq_false (hline a (List.mem_cons_self a rest)) '|' (by decide)).2
    simp [tableLine, hba]

/-- The table pattern consumes nothing on plain text. -/
theorem plain_tableMatchLen {l : List Char} (hl : ∀ c ∈ l, isPlainChar c = true)
    (fuel : Nat) : tableMatchLen fuel l = 0 := by
  cases fuel with
  | zero => rfl
  | succ n =>
    have hline : ∀ c ∈ l.takeWhile (fun c => c != '\n'), isPlainChar c = true :=
      fun c hc => hl c ((List.takeWhile_sublist _).subset hc)
    simp [tableMatchLen, plain_tableLine_false hline]

theorem m_table_none {l : List Char} (hl : ∀ c ∈ l, isPlainChar c = true) (st : Bool) :
    m_table st l = none := by
  cases st
  · rfl
  · simp [m_table, plain_tableMatchLen hl]

theorem m_heading_none {l : List Char} (hl : ∀ c ∈ l, isPlainChar c = true)
    (j : Nat) (wl wr : List Char) (st : Bool) : m_heading (j + 1) wl wr st l = none := by
  have hp : (List.replicate (j + 1) '#').isPrefixOf l = false := by
    rw [List.replicate_succ]
    exact plain_prefix_false (by decide) hl
  simp [m_heading, hp]

theorem m_emph_none {l : List Char} (hl : ∀ c ∈ l, isPlainChar c = true)
    (c0 : Char) (cs : List Char) (h0 : isPlainChar c0 = false) (st : Bool) :
    m_emph (c0 :: cs) st l = none := by
  simp [m_emph, plain_prefix_false h0 hl]

theorem m_ulist_none {l : List Char} (hl : ∀ c ∈ l, isPlainChar c = true) (st : Bool) :
    m_ulist st l = none := by
  cases l with
  | nil => cases st <;> rfl
  | cons a rest =>
    have h1 := (plain_beq_false (hl a (List.mem_cons_self a rest)) '-' (by decide)).2
    have h2 := (plain_beq_false (hl a (List.mem_cons_self a rest)) '*' (by decide)).2
    have h3 := (plain_beq_false (hl a (List.mem_cons_self a rest)) '+' (by decide)).2
    simp [m_ulist, plain_takeWhile_pyspace hl, h1, h2, h3]

theorem m_olist_none {l : List Char} (hl : ∀ c ∈ l, isPlainChar c = true) (st : Bool) :
    m_olist st l = none := by
  cases l with
  | nil => cases st <;> rfl
  | cons a rest =>
    have hd : (a :: rest).takeWhile isDigitChar = [] := by
      rw [List.takeWhile_cons, plain_not_digit (hl a (List.mem_cons_self a rest))]
      rfl
    simp [m_olist, plain_takeWhile_pyspace hl, hd]

theorem m_icode_none {l : List Char} (hl : ∀ c ∈ l, isPlainChar c = true) (st : Bool) :
    m_icode st l = none := by
  cases l with
  | nil => rfl
  | cons a rest =>
    have hba := (plain_beq_false (hl a (List.mem_cons_self a rest)) btChar (by decide)).2
    simp [m_icode, hba]

theorem m_link_none {l : List Char} (hl : ∀ c ∈ l, isPlainChar c = true) (st : Bool) :
    m_link st l = none := by
  cases l with
  | nil => rfl
  | cons a rest =>
    have hba := (plain_beq_false (hl a (List.mem_cons_self a rest)) '[' (by decide)).2
    simp [m_link, hba]

theorem m_hr_none {l : List Char} (hl : ∀ c ∈ l, isPlainChar c = true) (st : Bool) :
    m_hr st l = none := by
  cases l with
  | nil => cases st <;> rfl
  | cons a rest =>
    have h1 := (plain_beq_false (hl a (List.mem_cons_self a rest)) '-' (by decide)).2
    have h2 := (plain_beq_false (hl a (List.mem_cons_self a rest)) '*' (by decide)).2
    have h3 := (plain_beq_false (hl a (List.mem_cons_self a rest)) '_' (by decide)).2
    have hrun : (a :: rest).takeWhile (fun c => c == '-' || c == '*' || c == '_') = [] := by
      rw [List.takeWhile_cons, h1, h2, h3]
      rfl
    simp [m_hr, hrun]

theorem m_bq_none {l : List Char} (hl : ∀ c ∈ l, isPlainChar c = true) (st : Bool) :
    m_bq st l = none := by
  cases l with
  | nil => cases st <;> rfl
  | cons a rest =>
    have hba := (plain_beq_false (hl a (List.mem_cons_self a rest)) '>' (by decide)).2
    simp [m_bq, hba]

theorem m_pipe_none {l : List Char} (hl : ∀ c ∈ l, isPlainChar c = true) (st : Bool) :
    m_pipe st l = none := by
  cases l with
  | nil => rfl
  | cons a rest =>
    have hba := (plain_beq_false (hl a (List.mem_cons_self a rest)) '|' (by decide)).2
    simp [m_pipe, plain_takeWhile_pyspace hl, hba]

theorem m_nl3_none {l : List Char} (hl : ∀ c ∈ l, isPlainChar c = true) (st : Bool) :
    m_nl3 st l = none := by
  cases l with
  | nil => rfl
  | cons a rest =>
    have hba := (plain_beq_false (hl a (List.mem_cons_self a rest)) '\n' (by decide)).2
    have hrun : (a :: rest).takeWhile (fun c => c == '\n') = [] := by
      rw [List.takeWhile_cons, hba]
      rfl
    simp [m_nl3, hrun]

theorem m_trail_none {l : List Char} (hl : ∀ c ∈ l, isPlainChar c = true) (st : Bool) :
    m_trail st l = none := by
  cases l with
  | nil => rfl
  | cons a rest =>
    have h1 := (plain_beq_false (hl a (List.mem_cons_self a rest)) ' ' (by decide)).2
    have h2 := (plain_beq_false (hl a (List.mem_cons_self a rest)) '\t' (by decide)).2
    have hrun : (a :: rest).takeWhile (fun c => c == ' ' || c == '\t') = [] := by
      rw [List.takeWhile_cons, h1, h2]
      rfl
    simp [m_trail, hrun]

/-- The final strip leaves plain text unchanged. -/
theorem plain_pyStripList_id {l : List Char} (hl : ∀ c ∈ l, isPlainChar c = true) :
    pyStripList l = l := by
  have hdw : ∀ (l' : List Char), (∀ c ∈ l', isPlainChar c = true) →
      l'.dropWhile isPySpace = l' := by
    intro l' hl'
    cases l' with
    | nil => rfl
    | cons a rest =>
      rw [List.dropWhile_cons, plain_not_pyspace (hl' a (List.mem_cons_self a rest))]
      rfl
  unfold pyStripList
  rw [hdw l hl, hdw l.reverse (fun c hc => hl c (List.mem_reverse.mp hc)), List.reverse_reverse]

/-- On plain lowercase text every pass of the converter is the
identity, hence so is the converter itself. -/
theorem convert_chars_plain_id {l : List Char} (hl : ∀ c ∈ l, isPlainChar c = true) :
    convert_markdown_to_text_chars l = l := by
  by_cases hemp : l.isEmpty = true
  · rw [List.isEmpty_iff.mp hemp]
    rfl
  · simp only [convert_markdown_to_text_chars, hemp, if_false]
    rw [reSub_id m_fence isPlainChar (fun st l' h => m_fence_none h st) l hl]
    rw [reSub_id m_ticks isPlainChar (fun st l' h => m_ticks_none h st) l hl]
    rw [reSub_id m_table isPlainChar (fun st l' h => m_table_none h st) l hl]
    rw [reSub_id (m_heading 6 ['\n'] ['\n']) isPlainChar
      (fun st l' h => m_heading_none h 5 _ _ st) l hl]
    rw [reSub_id (m_heading 5 ['\n'] ['\n']) isPlainChar
      (fun st l' h => m_heading_none h 4 _ _ st) l hl]
    rw [reSub_id (m_heading 4 ['\n'] ['\n']) isPlainChar
      (fun st l' h => m_heading_none h 3 _ _ st) l hl]
    rw [reSub_id (m_heading 3 "\n=== ".toList " ===\n".toList) isPlainChar
      (fun st l' h => m_heading_none h 2 _ _ st) l hl]
    rw [reSub_id (m_heading 2 "\n== ".toList " ==\n".toList) isPlainChar
      (fun st l' h => m_heading_none h 1 _ _ st) l hl]
    rw [reSub_id (m_heading 1 "\n= ".toList " =\n".toList) isPlainChar
      (fun st l' h => m_heading_none h 0 _ _ st) l hl]
    rw [reSub_id (m_emph ['*', '*', '*']) isPlainChar
      (fun st l' h => m_emph_none h '*' _ (by decide) st) l hl]
    rw [reSub_id (m_emph ['*', '*']) isPlainChar
      (fun st l' h => m_emph_none h '*' _ (by decide) st) l hl]
    rw [reSub_id (m_emph ['_', '_']) isPlainChar
      (fun st l' h => m_emph_none h '_' _ (by decide) st) l hl]
    rw [reSub_id (m_emph ['*']) isPlainChar
      (fun st l' h => m_emph_none h '*' _ (by decide) st) l hl]
    rw [reSub_id (m_emph ['_']) isPlainChar
      (fun st l' h => m_emph_none h '_' _ (by decide) st) l hl]
    rw [reSub_id m_ulist isPlainChar (fun st l' h => m_ulist_none h st) l hl]
    rw [reSub_id m_olist isPlainChar (fun st l' h => m_olist_none h st) l hl]
    rw [reSub_id m_icode isPlainChar (fun st l' h => m_icode_none h st) l hl]
    rw [reSub_id m_link isPlainChar (fun st l' h => m_link_none h st) l hl]
    rw [reSub_id m_hr isPlainChar (fun st l' h => m_hr_none h st) l hl]
    rw [reSub_id m_bq isPlainChar (fun st l' h => m_bq_none h st) l hl]
    rw [reSub_id m_pipe isPlainChar (fun st l' h => m_pipe_none h st) l hl]
    rw [reSub_id m_nl3 isPlainChar (fun st l' h => m_nl3_none h st) l hl]
    rw [reSub_id m_trail isPlainChar (fun st l' h => m_trail_none h st) l hl]
    exact plain_pyStripList_id hl

/-- On plain lowercase strings the converter is the identity. -/
theorem convert_plain_id (s : String) (h : s.data.all isPlainChar = true) :
    convert_markdown_to_text s = s := by
  have hl : ∀ c ∈ s.data, isPlainChar c = true := fun c hc => List.all_eq_true.mp h c hc
  show String.mk (convert_markdown_to_text_chars s.data) = s
  rw [convert_chars_plain_id hl]

/-! ### Helper lemmas about the dialog operations -/

/-- A completed successful analysis replaces the whole dialog state
with the fresh three-turn transcript, the cleared flag, and the
normalized display copy. -/
theorem onAnalyze_ok_state (st : AnalystState) (htmlRaw : String) (conf : WcagConfig)
    (chat : List ChatMsg → Option String → Except String String) (r : String)
    (hbusy : st.analyzing = false) (hh : pyStrip htmlRaw ≠ "")
    (hchat : chat
        [⟨"user", get_analysis_prompt (pyStrip htmlRaw) "HTML entered by user" conf.language⟩]
        (some (get_system_prompt conf.language conf.wcagVersion conf.wcagLevel)) = .ok r) :
    WCAGAnalystDialog.onAnalyze st htmlRaw conf chat =
      ⟨[⟨"system", get_system_prompt conf.language conf.wcagVersion conf.wcagLevel⟩,
        ⟨"user", get_analysis_prompt (pyStrip htmlRaw) "HTML entered by user" conf.language⟩,
        ⟨"assistant", r⟩], false, convert_markdown_to_text r⟩ := by
  have h1 : (pyStrip htmlRaw == "") = false := beq_eq_false_iff_ne.mpr hh
  simp only [WCAGAnalystDialog.onAnalyze, h1, Bool.false_eq_true, if_false, hbusy, hchat]

/-- An analysis requested while one is in flight leaves the state
untouched. -/
theorem onAnalyze_busy_state (st : AnalystState) (htmlRaw : String) (conf : WcagConfig)
    (chat : List ChatMsg → Option String → Except String String)
    (hbusy : st.analyzing = true) (hh : pyStrip htmlRaw ≠ "") :
    WCAGAnalystDialog.onAnalyze st htmlRaw conf chat = st := by
  have h1 : (pyStrip htmlRaw == "") = false := beq_eq_false_iff_ne.mpr hh
  simp [WCAGAnalystDialog.onAnalyze, h1, hbusy]

/-- A completed successful follow-up on the analyst dialog appends
exactly the user turn and the raw assistant turn. -/
theorem analyst_askMore_ok_conv (st : AnalystState) (qRaw : String)
    (chat : List ChatMsg → Option String → Except String String) (r : String)
    (hbusy : st.analyzing = false) (hconv : st.conversation ≠ [])
    (hq : pyStrip qRaw ≠ "")
    (hchat : chat (st.conversation ++ [⟨"user", pyStrip qRaw⟩]) none = .ok r) :
    (WCAGAnalystDialog.onAskMore st qRaw chat).conversation =
      st.conversation ++ [⟨"user", pyStrip qRaw⟩, ⟨"assistant", r⟩] := by
  have h1 : (pyStrip qRaw == "") = false := beq_eq_false_iff_ne.mpr hq
  have h2 : st.conversation.isEmpty = false := by
    cases h : st.conversation.isEmpty
    · rfl
    · exact absurd (List.isEmpty_iff.mp h) hconv
  simp only [WCAGAnalystDialog.onAskMore, h1, h2, Bool.false_eq_true, if_false, hbusy, hchat]
  simp

/-- A failed follow-up on the analyst dialog keeps the speculative
user turn and appends nothing else. -/
theorem analyst_askMore_err_conv (st : AnalystState) (qRaw : String)
    (chat : List ChatMsg → Option String → Except String String) (e : String)
    (hbusy : st.analyzing = false) (hconv : st.conversation ≠ [])
    (hq : pyStrip qRaw ≠ "")
    (hchat : chat (st.conversation ++ [⟨"user", pyStrip qRaw⟩]) none = .error e) :
    (WCAGAnalystDialog.onAskMore st qRaw chat).conversation =
      st.conversation ++ [⟨"user", pyStrip qRaw⟩] := by
  have h1 : (pyStrip qRaw == "") = false := beq_eq_false_iff_ne.mpr hq
  have h2 : st.conversation.isEmpty = false := by
    cases h : st.conversation.isEmpty
    · rfl
    · exact absurd (List.isEmpty_iff.mp h) hconv
  simp only [WCAGAnalystDialog.onAskMore, h1, h2, Bool.false_eq_true, if_false, hbusy, hchat]

/-- A completed successful follow-up on the result dialog appends
exactly the user turn and the raw assistant turn. -/
theorem result_askMore_ok_conv (st : ResultDialogState) (qRaw : String)
    (chat : List ChatMsg → Except String String) (r : String)
    (hq : pyStrip qRaw ≠ "")
    (hchat : chat (st.conversation ++ [⟨"user", pyStrip qRaw⟩]) = .ok r) :
    (WCAGResultDialog.onAskMore st qRaw chat).conversation =
      st.conversation ++ [⟨"user", pyStrip qRaw⟩, ⟨"assistant", r⟩] := by
  have h1 : (pyStrip qRaw == "") = false := beq_eq_false_iff_ne.mpr hq
  simp only [WCAGResultDialog.onAskMore, h1, Bool.false_eq_true, if_false, hchat]
  simp

/-- A failed follow-up on the result dialog keeps the speculative user
turn and appends nothing else. -/
theorem result_askMore_err_conv (st : ResultDialogState) (qRaw : String)
    (chat : List ChatMsg → Except String String) (e : String)
    (hq : pyStrip qRaw ≠ "")
    (hchat : chat (st.conversation ++ [⟨"user", pyStrip qRaw⟩]) = .error e) :
    (WCAGResultDialog.onAskMore st qRaw chat).conversation =
      st.conversation ++ [⟨"user", pyStrip qRaw⟩] := by
  have h1 : (pyStrip qRaw == "") = false := beq_eq_false_iff_ne.mpr hq
  simp only [WCAGResultDialog.onAskMore, h1, Bool.false_eq_true, if_false, hchat]

/-! ### Concrete fixtures used by witnesses and counterexamples -/

/-- A chat stub that always fails (analyst dialog signature). -/
def chatFailA : List ChatMsg → Option String → Except String String :=
  fun _ _ => .error "Connection error (attempt 3/3): timed out"

/-- A chat stub that always answers (analyst dialog signature). -/
def chatOkA : List ChatMsg → Option String → Except String String :=
  fun _ _ => .ok "r2"

/-- A chat stub that always fails (result dialog signature). -/
def chatFailR : List ChatMsg → Except String String :=
  fun _ => .error "Connection error (attempt 3/3): timed out"

/-- A chat stub that always answers (result dialog signature). -/
def chatOkR : List ChatMsg → Except String String :=
  fun _ => .ok "fine"

/-- An analyst dialog state holding a completed first analysis. -/
def analystStA : AnalystState :=
  ⟨[⟨"system", "s0"⟩, ⟨"user", "u0"⟩, ⟨"assistant", "a0"⟩], false, "out"⟩

/-- A result dialog state as opened by the element-analysis flow. -/
def resultStA : ResultDialogState := WCAGResultDialog.init "first answer" "<div>x</div>"

/-- An English configuration snapshot. -/
def confEn : WcagConfig := ⟨"en", "2.2", "AA"⟩

/-- A transport failing with URLError on the first two attempts and
succeeding on the third, keyed on the exact timeouts the client must
pass for base 120. -/
def transport3 : List ChatMsg → Nat → Nat → TransportResult := fun _ a tmo =>
  if a == 0 && tmo == 120 then .exc (.urlError "connection refused")
  else if a == 1 && tmo == 150 then .exc (.urlError "connection refused")
  else if a == 2 && tmo == 180 then .ok (.obj [("message", .obj [("content", .str "hi")])])
  else .exc (.other "unexpected call")

/-- A transport raising an HTTP error status on the first attempt and
succeeding on the second. -/
def transportHttp : List ChatMsg → Nat → Nat → TransportResult := fun _ a _ =>
  if a == 0 then .exc (.httpError 500 "HTTP Error 500: Internal Server Error")
  else .ok (.obj [("message", .obj [("content", .str "recovered")])])

/-- A transport whose first attempt raises a non-URLError exception. -/
def transportBadJson : List ChatMsg → Nat → Nat → TransportResult := fun _ _ _ =>
  .exc (.other "Expecting value: line 1 column 1 (char 0)")

/-! ### Claim theorems -/

/-- Claim C1, counterexample: with a three-turn transcript, a nonempty
question and a failing chat call, the analyst dialog's follow-up leaves
the transcript extended by the speculative user turn, so it does not
equal the transcript it started from — the rollback the claim asserts
does not happen. -/
theorem C1_counterexample :
    (WCAGAnalystDialog.onAskMore analystStA "q" chatFailA).conversation =
      analystStA.conversation ++ [⟨"user", "q"⟩] ∧
    (WCAGAnalystDialog.onAskMore analystStA "q" chatFailA).conversation ≠
      analystStA.conversation := by
  decide

/-- Claim C1, amended: when a follow-up `ask` fails, no assistant turn
is appended but the user turn appended speculatively before the send is
retained, in both dialogs: the transcript afterwards equals the prior
transcript extended by exactly that user turn. -/
theorem C1_ask_failure_keeps_speculative_user_turn :
    (∀ (st : AnalystState) (qRaw : String)
        (chat : List ChatMsg → Option String → Except String String) (e : String),
      st.analyzing = false → st.conversation ≠ [] → pyStrip qRaw ≠ "" →
      chat (st.conversation ++ [⟨"user", pyStrip qRaw⟩]) none = .error e →
      (WCAGAnalystDialog.onAskMore st qRaw chat).conversation =
        st.conversation ++ [⟨"user", pyStrip qRaw⟩]) ∧
    (∀ (st : ResultDialogState) (qRaw : String)
        (chat : List ChatMsg → Except String String) (e : String),
      pyStrip qRaw ≠ "" →
      chat (st.conversation ++ [⟨"user", pyStrip qRaw⟩]) = .error e →
      (WCAGResultDialog.onAskMore st qRaw chat).conversation =
        st.conversation ++ [⟨"user", pyStrip qRaw⟩]) :=
  ⟨fun st qRaw chat e hb hc hq hch => analyst_askMore_err_conv st qRaw chat e hb hc hq hch,
   fun st qRaw chat e hq hch => result_askMore_err_conv st qRaw chat e hq hch⟩

/-- Claim C1 witness: the amended statement applied to concrete failing
exchanges on both dialogs. -/
theorem C1_witness :
    pyStrip "q" ≠ "" ∧
    (WCAGAnalystDialog.onAskMore analystStA "q" chatFailA).conversation =
      analystStA.conversation ++ [⟨"user", pyStrip "q"⟩] ∧
    (WCAGResultDialog.onAskMore resultStA "q" chatFailR).conversation =
      resultStA.conversation ++ [⟨"user", pyStrip "q"⟩] :=
  ⟨by decide,
   C1_ask_failure_keeps_speculative_user_turn.1 analystStA "q" chatFailA
     "Connection error (attempt 3/3): timed out" rfl (by decide) (by decide) rfl,
   C1_ask_failure_keeps_speculative_user_turn.2 resultStA "q" chatFailR
     "Connection error (attempt 3/3): timed out" (by decide) rfl⟩

/-- Claim C2, counterexample: the element-analysis flow normalizes the
model output before opening the result dialog, and the dialog stores
that displayed copy as the assistant turn of the transcript it seeds —
for model output with markdown the stored turn is the normalized text,
not the verbatim output. -/
theorem C2_counterexample :
    ((GlobalPlugin.showResult "**bold**" "<div>x</div>").conversation.map ChatMsg.content) =
      ["HTML: <div>x</div>", "bold"] ∧ ("bold" : String) ≠ "**bold**" := by
  decide

/-- Claim C2, amended: the assistant turn appended on success is the
verbatim model output in the analyst dialog's initial analysis and in
the follow-ups of both dialogs; the exception forced by the
counterexample is the element-analysis flow, where
`GlobalPlugin._showResult` hands the normalized copy to
`WCAGResultDialog.__init__`, which stores it as the seeded assistant
turn. -/
theorem C2_assistant_turn_verbatim :
    (∀ (st : AnalystState) (htmlRaw : String) (conf : WcagConfig)
        (chat : List ChatMsg → Option String → Except String String) (r : String),
      st.analyzing = false → pyStrip htmlRaw ≠ "" →
      chat [⟨"user", get_analysis_prompt (pyStrip htmlRaw) "HTML entered by user"
              conf.language⟩]
        (some (get_system_prompt conf.language conf.wcagVersion conf.wcagLevel)) = .ok r →
      (WCAGAnalystDialog.onAnalyze st htmlRaw conf chat).conversation =
        [⟨"system", get_system_prompt conf.language conf.wcagVersion conf.wcagLevel⟩,
         ⟨"user", get_analysis_prompt (pyStrip htmlRaw) "HTML entered by user" conf.language⟩,
         ⟨"assistant", r⟩]) ∧
    (∀ (st : AnalystState) (qRaw : String)
        (chat : List ChatMsg → Option String → Except String String) (r : String),
      st.analyzing = false → st.conversation ≠ [] → pyStrip qRaw ≠ "" →
      chat (st.conversation ++ [⟨"user", pyStrip qRaw⟩]) none = .ok r →
      (WCAGAnalystDialog.onAskMore st qRaw chat).conversation =
        st.conversation ++ [⟨"user", pyStrip qRaw⟩, ⟨"assistant", r⟩]) ∧
    (∀ (st : ResultDialogState) (qRaw : String)
        (chat : List ChatMsg → Except String String) (r : String),
      pyStrip qRaw ≠ "" →
      chat (st.conversation ++ [⟨"user", pyStrip qRaw⟩]) = .ok r →
      (WCAGResultDialog.onAskMore st qRaw chat).conversation =
        st.conversation ++ [⟨"user", pyStrip qRaw⟩, ⟨"assistant", r⟩]) :=
  ⟨fun st htmlRaw conf chat r hb hh hch => by
      rw [onAnalyze_ok_state st htmlRaw conf chat r hb hh hch],
   fun st qRaw chat r hb hc hq hch => analyst_askMore_ok_conv st qRaw chat r hb hc hq hch,
   fun st qRaw chat r hq hch => result_askMore_ok_conv st qRaw chat r hq hch⟩

/-- Claim C2 witness: the amended statement applied to concrete
successful exchanges on all three paths. -/
theorem C2_witness :
    (WCAGAnalystDialog.onAnalyze analystStA "<div>x</div>" confEn chatOkA).conversation =
      [⟨"system", get_system_prompt "en" "2.2" "AA"⟩,
       ⟨"user", get_analysis_prompt "<div>x</div>" "HTML entered by user" "en"⟩,
       ⟨"assistant", "r2"⟩] ∧
    (WCAGAnalystDialog.onAskMore analystStA "q" chatOkA).conversation =
      analystStA.conversation ++ [⟨"user", pyStrip "q"⟩, ⟨"assistant", "r2"⟩] ∧
    (WCAGResultDialog.onAskMore resultStA "q" chatOkR).conversation =
      resultStA.conversation ++ [⟨"user", pyStrip "q"⟩, ⟨"assistant", "fine"⟩] :=
  ⟨C2_assistant_turn_verbatim.1 analystStA "<div>x</div>" confEn chatOkA "r2"
     rfl (by decide) rfl,
   C2_assistant_turn_verbatim.2.1 analystStA "q" chatOkA "r2" rfl (by decide) (by decide) rfl,
   C2_assistant_turn_verbatim.2.2 resultStA "q" chatOkR "fine" (by decide) rfl⟩

/-- Claim C3: a transport that fails at the transport level on the
first two attempts and succeeds on the third makes `send` return the
successful response's content, and the hypotheses pin the timeouts the
client hands the transport to base, base plus thirty and base plus
sixty — the proof only goes through because the loop consults the
transport exactly at those three points. -/
theorem C3_send_retries_with_growing_timeout
    (t : List ChatMsg → Nat → Nat → TransportResult) (msgs : List ChatMsg)
    (sp : Option String) (b : Nat) (m0 m1 : String) (body c : PyJson)
    (h0 : t (ollama_payload_messages msgs sp) 0 b = .exc (.urlError m0))
    (h1 : t (ollama_payload_messages msgs sp) 1 (b + 30) = .exc (.urlError m1))
    (h2 : t (ollama_payload_messages msgs sp) 2 (b + 60) = .ok body)
    (hc : extract_content body = .ok c) :
    ollama_chat_with_retry t msgs sp b 3 = .ok c := by
  have e0 : b + 0 * 30 = b := by omega
  have e1 : b + 1 * 30 = b + 30 := by omega
  have e2 : b + 2 * 30 = b + 60 := by omega
  simp [ollama_chat_with_retry, ollama_chat_attempts, e0, e1, e2, h0, h1, h2, hc,
    PyExc.isURLError]

/-- Claim C3 witness: the theorem applied to a concrete transport keyed
on the exact timeouts 120, 150 and 180. -/
theorem C3_witness : ollama_chat_with_retry transport3 [] none 120 3 = .ok (.str "hi") :=
  C3_send_retries_with_growing_timeout transport3 [] none 120
    "connection refused" "connection refused"
    (.obj [("message", .obj [("content", .str "hi")])]) (.str "hi") rfl rfl rfl rfl

/-- Claim C4, counterexample: an HTTP error status raises HTTPError,
a subclass of URLError, so the first failed attempt is retried rather
than aborted — with a transport whose second attempt succeeds, `send`
returns that success instead of failing after exactly one attempt. -/
theorem C4_counterexample :
    ollama_chat_with_retry transportHttp [] none 120 3 = .ok (.str "recovered") := rfl

/-- Claim C4, amended: a first-attempt failure that is not a URLError
instance (for example a malformed server response failing
`json.loads`) aborts immediately with a ChatError carrying the API
error message, with no retry — the conclusion holds for every
transport agreeing on attempt zero, so no later attempt is consulted;
HTTP error statuses, by contrast, raise the URLError subclass
HTTPError and are retried like transport failures. -/
theorem C4_send_aborts_on_non_urlerror
    (t : List ChatMsg → Nat → Nat → TransportResult) (msgs : List ChatMsg)
    (sp : Option String) (b : Nat) (m : String)
    (h0 : t (ollama_payload_messages msgs sp) 0 b = .exc (.other m)) :
    ollama_chat_with_retry t msgs sp b 3 = .error ("API error: " ++ m) := by
  have e0 : b + 0 * 30 = b := by omega
  simp [ollama_chat_with_retry, ollama_chat_attempts, e0, h0,
    PyExc.isURLError, PyExc.str]

/-- Claim C4 witness: the amended statement applied to a transport
whose first attempt raises a JSON decode failure. -/
theorem C4_witness :
    ollama_chat_with_retry transportBadJson [] none 120 3 =
      .error ("API error: " ++ "Expecting value: line 1 column 1 (char 0)") :=
  C4_send_aborts_on_non_urlerror transportBadJson [] none 120
    "Expecting value: line 1 column 1 (char 0)" rfl

/-- Claim C9: an empty-string system prompt is falsy in Python, so no
synthetic system turn is prepended and the messages field of the
outgoing request is exactly the caller's transcript. -/
theorem C9_empty_system_prompt_ignored (msgs : List ChatMsg) :
    ollama_payload_messages msgs (some "") = msgs := rfl

/-- A list none of whose members equal `a` does not contain `a`. -/
theorem contains_eq_false_of_forall {l : List Char} {a : Char}
    (h : ∀ c ∈ l, c ≠ a) : l.contains a = false := by
  simp
  exact fun hmem => h a hmem rfl

/-- Claim C5, counterexample: the converter is not idempotent — the
blockquote pass strips the marker and exposes a heading that only the
second application rewrites. -/
theorem C5_counterexample :
    convert_markdown_to_text "> # T" = "# T" ∧
    convert_markdown_to_text "# T" = "= T =" ∧
    convert_markdown_to_text (convert_markdown_to_text "> # T") ≠
      convert_markdown_to_text "> # T" := by
  refine ⟨rfl, rfl, ?_⟩
  decide

/-- Claim C5, amended: idempotence fails in general (a stripped
blockquote can expose heading syntax for the second pass), but on
inputs free of markdown syntax and whitespace — strings of plain
lowercase letters — the converter is the identity and hence
idempotent. -/
theorem C5_idempotent_on_plain (s : String) (h : s.data.all isPlainChar = true) :
    convert_markdown_to_text (convert_markdown_to_text s) = convert_markdown_to_text s := by
  rw [convert_plain_id s h, convert_plain_id s h]

/-- Claim C5 witness: the amended statement at a concrete plain
string. -/
theorem C5_witness :
    ("abc" : String).data.all isPlainChar = true ∧
    convert_markdown_to_text (convert_markdown_to_text "abc") =
      convert_markdown_to_text "abc" :=
  ⟨by decide, C5_idempotent_on_plain "abc" (by decide)⟩

/-- Claim C6, counterexample: a tilde — one of the claim's control
characters — survives conversion of an input with no code block at
all, and the trailing-whitespace cleanup, which runs after the newline
collapise, can merge newline runs into a run of four. -/
theorem C6_counterexample :
    convert_markdown_to_text "~" = "~" ∧
    convert_markdown_to_text "a\n\n \n\nb" = "a\n\n\n\nb" ∧
    List.IsInfix "\n\n\n".data "a\n\n\n\nb".data := by
  refine ⟨rfl, rfl, ⟨['a'], ['\n', 'b'], by decide⟩⟩

/-- Claim C6, amended: of the listed control characters only the pipe
is guaranteed to be eliminated — the output of the converter never
contains a pipe character; tildes (never touched by any rule), stray
asterisks, underscores, hashes and backticks can survive outside code
blocks, and runs of three or more newlines can be reintroduced by the
trailing-whitespace cleanup. -/
theorem C6_output_never_contains_pipe (s : String) :
    (convert_markdown_to_text s).data.contains '|' = false :=
  contains_eq_false_of_forall (fun c hc => convert_chars_no_pipe s.data c hc)

/-- Claim C7, counterexample: invoking `onAnalyze` on a session that
already holds a completed first analysis does not fail — it runs the
new exchange, displays its normalized result, and replaces the
transcript with a fresh three-turn one. -/
theorem C7_counterexample :
    (WCAGAnalystDialog.onAnalyze analystStA "<div>x</div>" confEn chatOkA).conversation ≠
      analystStA.conversation ∧
    (WCAGAnalystDialog.onAnalyze analystStA "<div>x</div>" confEn chatOkA).resultOutput =
      convert_markdown_to_text "r2" ∧
    (WCAGAnalystDialog.onAnalyze analystStA "<div>x</div>" confEn chatOkA).conversation =
      [⟨"system", get_system_prompt "en" "2.2" "AA"⟩,
       ⟨"user", get_analysis_prompt "<div>x</div>" "HTML entered by user" "en"⟩,
       ⟨"assistant", "r2"⟩] := by
  refine ⟨by decide, rfl, by decide⟩

/-- Claim C7, amended: a second `onAnalyze` on an idle session raises
no SessionStateError; it runs a fresh exchange and replaces the whole
transcript with the new three turns, whatever the session already
held.  Only a concurrent in-flight analysis is refused, through the
busy flag, and that refusal leaves the state unchanged. -/
theorem C7_second_analyze_replaces_transcript :
    (∀ (st : AnalystState) (htmlRaw : String) (conf : WcagConfig)
        (chat : List ChatMsg → Option String → Except String String) (r : String),
      st.analyzing = false → pyStrip htmlRaw ≠ "" →
      chat [⟨"user", get_analysis_prompt (pyStrip htmlRaw) "HTML entered by user"
              conf.language⟩]
        (some (get_system_prompt conf.language conf.wcagVersion conf.wcagLevel)) = .ok r →
      WCAGAnalystDialog.onAnalyze st htmlRaw conf chat =
        ⟨[⟨"system", get_system_prompt conf.language conf.wcagVersion conf.wcagLevel⟩,
          ⟨"user", get_analysis_prompt (pyStrip htmlRaw) "HTML entered by user"
             conf.language⟩,
          ⟨"assistant", r⟩], false, convert_markdown_to_text r⟩) ∧
    (∀ (st : AnalystState) (htmlRaw : String) (conf : WcagConfig)
        (chat : List ChatMsg → Option String → Except String String),
      st.analyzing = true → pyStrip htmlRaw ≠ "" →
      WCAGAnalystDialog.onAnalyze st htmlRaw conf chat = st) :=
  ⟨fun st h conf chat r hb hh hch => onAnalyze_ok_state st h conf chat r hb hh hch,
   fun st h conf chat hb hh => onAnalyze_busy_state st h conf chat hb hh⟩

/-- Claim C7 witness: the amended statement applied to a session
holding a completed analysis (replacement case) and to a busy session
(refusal case). -/
theorem C7_witness :
    WCAGAnalystDialog.onAnalyze analystStA "<div>x</div>" confEn chatOkA =
      ⟨[⟨"system", get_system_prompt "en" "2.2" "AA"⟩,
        ⟨"user", get_analysis_prompt "<div>x</div>" "HTML entered by user" "en"⟩,
        ⟨"assistant", "r2"⟩], false, convert_markdown_to_text "r2"⟩ ∧
    WCAGAnalystDialog.onAnalyze ⟨analystStA.conversation, true, "out"⟩ "<div>x</div>"
        confEn chatOkA = ⟨analystStA.conversation, true, "out"⟩ :=
  ⟨C7_second_analyze_replaces_transcript.1 analystStA "<div>x</div>" confEn chatOkA "r2"
     rfl (by decide) rfl,
   C7_second_analyze_replaces_transcript.2 ⟨analystStA.conversation, true, "out"⟩
     "<div>x</div>" confEn chatOkA rfl (by decide)⟩

/-- Claim C8: every pipe of the intermediate text is consumed by the
late pipe-removal pass, and the last two cleanup passes and the final
strip introduce none, so the converter's output never holds a pipe
character — also inside what had been a code block, since the pass runs
on the whole text after the code block rule. -/
theorem C8_output_pipe_count_zero (s : String) :
    (convert_markdown_to_text s).data.count '|' = 0 := by
  rw [List.count_eq_zero]
  intro hmem
  exact convert_chars_no_pipe s.data '|' hmem rfl

/-- Reading a key off a Python dict never raises and yields the
defaulted lookup. -/
theorem PyJson_get_obj (fields : List (String × PyJson)) (k : String) (d : PyJson) :
    (PyJson.obj fields).get k d = .ok ((PyJson.obj fields).getD k d) := rfl

/-- On a list of dict entries the comprehension never raises and
yields one defaulted name lookup per entry. -/
theorem models_name_list_ok (ms : List PyJson) (hwf : ∀ m ∈ ms, m.isObj = true) :
    models_name_list ms = .ok (ms.map (fun m => m.getD "name" (.str ""))) := by
  induction ms with
  | nil => rfl
  | cons m rest ih =>
    have hm := hwf m (List.mem_cons_self m rest)
    have ihr := ih (fun x hx => hwf x (List.mem_cons_of_mem m hx))
    cases m with
    | obj fs => simp [models_name_list, PyJson.get, PyJson.getD, ihr]
    | str s => simp [PyJson.isObj] at hm
    | num n => simp [PyJson.isObj] at hm
    | bool b => simp [PyJson.isObj] at hm
    | null => simp [PyJson.isObj] at hm
    | arr xs => simp [PyJson.isObj] at hm

/-- Claim C10: on a well-formed tags response — a dict whose models
key holds an array of dicts — `get_ollama_models` returns one element
per entry, the defaulted name lookup, so entries lacking a name field
contribute the empty string without shortening the list or raising. -/
theorem C10_list_models_per_entry (fields : List (String × PyJson)) (ms : List PyJson)
    (hm : (PyJson.obj fields).getD "models" (.arr []) = .arr ms)
    (hwf : ∀ m ∈ ms, m.isObj = true) :
    get_ollama_models (.ok (.obj fields)) =
      ms.map (fun m => m.getD "name" (.str "")) ∧
    (get_ollama_models (.ok (.obj fields))).length = ms.length := by
  have hget : (PyJson.obj fields).get "models" (.arr []) = .ok (.arr ms) := by
    rw [PyJson_get_obj, hm]
  constructor
  · simp [get_ollama_models, models_extract, hget, models_name_list_ok ms hwf]
  · simp [get_ollama_models, models_extract, hget, models_name_list_ok ms hwf]

/-- A concrete tags response with one named entry and one entry
lacking a name field. -/
def tagsFields : List (String × PyJson) :=
  [("models", .arr [.obj [("name", .str "llama3.2")], .obj [("size", .num 5)]])]

/-- Claim C10 witness: the theorem applied to the concrete tags
response; the nameless entry yields the empty string and the length is
preserved. -/
theorem C10_witness :
    get_ollama_models (.ok (.obj tagsFields)) = [.str "llama3.2", .str ""] ∧
    (get_ollama_models (.ok (.obj tagsFields))).length = 2 := by
  have h := C10_list_models_per_entry tagsFields
    [.obj [("name", .str "llama3.2")], .obj [("size", .num 5)]] rfl
    (by intro m hm; fin_cases hm <;> rfl)
  exact ⟨h.1.trans rfl, h.2.trans rfl⟩
